import Mathlib

/-!
A verification development for the token-driven decoding engine of the
`serde_test` crate (files `src/serde_test/src/de.rs` and
`src/serde_test/src/assert.rs`).

The deserializer is shallowly embedded: the cursor of `Deserializer` is a
`List Token`, each Rust method becomes a pure function that returns the
remaining token list next to its result, fallible code returns
`Except Error`, and the generic `Visitor` trait object becomes a structure
of functions, one field per visitor method as instantiated by `de.rs`.
Float token payloads (`F32`/`F64`) are modelled by their bit patterns as
naturals; no claim in scope inspects or compares float payloads.
-/

namespace SerdeTest

/-- String payloads of tokens (names, variant names, string scalars). -/
abbrev Name := String

/-- An optional declared length, as carried by `SeqStart` / `MapStart`.
Declared separately so that the `Token.Option` constructor does not shadow
`Option` inside the inductive declaration. -/
abbrev OptNat := Option Nat

/-- Byte-sequence payloads. -/
abbrev ByteList := List Nat

/-- Alias so the `Token.Bool` constructor does not shadow `Bool` inside the
inductive declaration. -/
abbrev BoolT := Bool

/-- Alias so the `Token.Char` constructor does not shadow `Char` inside the
inductive declaration. -/
abbrev CharT := Char

/-- One structural event, mirroring `enum Token` as used by `de.rs`. -/
inductive Token where
  | Bool (v : BoolT)
  | I8 (v : Int)
  | I16 (v : Int)
  | I32 (v : Int)
  | I64 (v : Int)
  | U8 (v : Nat)
  | U16 (v : Nat)
  | U32 (v : Nat)
  | U64 (v : Nat)
  | F32 (bits : Nat)
  | F64 (bits : Nat)
  | Char (v : CharT)
  | Str (v : Name)
  | BorrowedStr (v : Name)
  | String (v : Name)
  | Bytes (v : ByteList)
  | BorrowedBytes (v : ByteList)
  | ByteBuf (v : ByteList)
  | Option (present : BoolT)
  | Unit
  | UnitStruct (name : Name)
  | StructNewType (name : Name)
  | SeqStart (len : OptNat)
  | SeqSep
  | SeqEnd
  | SeqArrayStart (len : Nat)
  | TupleStart (len : Nat)
  | TupleSep
  | TupleEnd
  | TupleStructStart (name : Name) (len : Nat)
  | TupleStructSep
  | TupleStructEnd
  | MapStart (len : OptNat)
  | MapSep
  | MapEnd
  | StructStart (name : Name) (len : Nat)
  | StructSep
  | StructEnd
  | EnumStart (name : Name)
  | EnumUnit (name : Name) (variant : Name)
  | EnumNewType (name : Name) (variant : Name)
  | EnumSeqStart (name : Name) (variant : Name) (len : Nat)
  | EnumSeqSep
  | EnumSeqEnd
  | EnumMapStart (name : Name) (variant : Name) (len : Nat)
  | EnumMapSep
  | EnumMapEnd
  deriving DecidableEq, Repr

/-- The decoder's error type (`error::Error` as observed from `de.rs` and
spec §7): end of stream, unexpected token carrying the offending token,
invalid name carrying the name actually seen, and a free-form message for
visitor-produced errors. -/
inductive Error where
  | EndOfTokens
  | UnexpectedToken (t : Token)
  | InvalidName (n : Name)
  | Message (msg : Name)
  deriving DecidableEq, Repr

/-- `Deserializer::next_token`: pull the next token off the cursor. -/
def nextToken : List Token → Option (Token × List Token)
  | [] => none
  | t :: rest => some (t, rest)

/-- `Deserializer::expect_token`: consume one token and check it matches. -/
def expectToken (expected : Token) (tokens : List Token) :
    Except Error (List Token) :=
  match nextToken tokens with
  | some (token, rest) =>
      if expected = token then .ok rest else .error (.UnexpectedToken token)
  | none => .error .EndOfTokens

/-- Modelled from the spec: `Deserializer::remaining` is declared in this
repository outside `src/` (only `assert.rs` calls it); spec §4.1 specifies it
as the count of unconsumed tokens. -/
def remaining (tokens : List Token) : Nat := tokens.length

/-- The state of `DeserializerSeqVisitor` (de.rs:353-358): the borrowed
cursor plus the remaining-length hint and the separator/terminator pair of
the sequence flavor in use.  The Rust field `de` (the borrowed deserializer)
is represented by its cursor `tokens`; the Rust field `end` is `endTok`
(`end` is reserved in Lean). -/
structure DeserializerSeqVisitor where
  tokens : List Token
  len : Option Nat
  sep : Token
  endTok : Token
  deriving Repr

/-- `DeserializerSeqVisitor::visit_seed` (de.rs:363-377).  The element seed
`seed` stands for `seed.deserialize(&mut *self.de)`: it consumes tokens from
the shared cursor.  `Nat` subtraction is saturating, matching
`len.saturating_sub(1)`. -/
def DeserializerSeqVisitor.visitSeed {β : Type}
    (seed : List Token → Except Error (β × List Token))
    (s : DeserializerSeqVisitor) :
    Except Error (Option β × DeserializerSeqVisitor) :=
  if s.tokens.head? = some s.endTok then
    .ok (none, s)
  else
    match nextToken s.tokens with
    | some (token, rest) =>
        if token = s.sep then
          match seed rest with
          | .ok (v, rest2) =>
              .ok (some v,
                { s with tokens := rest2, len := s.len.map (fun l => l - 1) })
          | .error e => .error e
        else .error (.UnexpectedToken token)
    | none => .error .EndOfTokens

/-- `DeserializerSeqVisitor::size_hint` (de.rs:379-382). -/
def DeserializerSeqVisitor.sizeHint (s : DeserializerSeqVisitor) :
    Nat × Option Nat :=
  (s.len.getD 0, s.len)

/-- The state of `DeserializerMapVisitor` (de.rs:387-392), identical in
shape to the sequence sub-decoder. -/
structure DeserializerMapVisitor where
  tokens : List Token
  len : Option Nat
  sep : Token
  endTok : Token
  deriving Repr

/-- `DeserializerMapVisitor::visit_key_seed` (de.rs:397-411), the same
peek-terminator / consume-separator protocol as `visit_seed`. -/
def DeserializerMapVisitor.visitKeySeed {κ : Type}
    (seed : List Token → Except Error (κ × List Token))
    (s : DeserializerMapVisitor) :
    Except Error (Option κ × DeserializerMapVisitor) :=
  if s.tokens.head? = some s.endTok then
    .ok (none, s)
  else
    match nextToken s.tokens with
    | some (token, rest) =>
        if token = s.sep then
          match seed rest with
          | .ok (v, rest2) =>
              .ok (some v,
                { s with tokens := rest2, len := s.len.map (fun l => l - 1) })
          | .error e => .error e
        else .error (.UnexpectedToken token)
    | none => .error .EndOfTokens

/-- `DeserializerMapVisitor::visit_value_seed` (de.rs:413-417):
unconditionally decode a value through the shared cursor. -/
def DeserializerMapVisitor.visitValueSeed {ν : Type}
    (seed : List Token → Except Error (ν × List Token))
    (s : DeserializerMapVisitor) :
    Except Error (ν × DeserializerMapVisitor) :=
  match seed s.tokens with
  | .ok (v, rest) => .ok (v, { s with tokens := rest })
  | .error e => .error e

/-- `DeserializerMapVisitor::size_hint` (de.rs:419-422). -/
def DeserializerMapVisitor.sizeHint (s : DeserializerMapVisitor) :
    Nat × Option Nat :=
  (s.len.getD 0, s.len)

/-- The state of `EnumMapVisitor` (de.rs:543-555): the cursor plus the
pending variant name, cleared by `Option::take` on the first key request. -/
structure EnumMapVisitor where
  tokens : List Token
  variant : Option Name
  deriving Repr

/-- `EnumMapVisitor::visit_key_seed` (de.rs:560-567).  The seed receives
the variant name's own string deserializer
(`variant.into_deserializer()`), not the token cursor, so it is modelled
as a function of the variant name. -/
def EnumMapVisitor.visitKeySeed {κ : Type}
    (seed : Name → Except Error κ)
    (s : EnumMapVisitor) :
    Except Error (Option κ × EnumMapVisitor) :=
  match s.variant with
  | some v =>
      match seed v with
      | .ok k => .ok (some k, { s with variant := none })
      | .error e => .error e
  | none => .ok (none, s)

/-- The generic `Visitor` trait object, one field per visitor method as
instantiated by `de.rs`.  Methods that receive a deserializer
(`visit_some`, `visit_newtype_struct`, `visit_enum`) consume tokens, so
they map a cursor to a value and the remaining cursor; `visit_seq` /
`visit_map` receive the access object and return it in its final state.
Rust's single generic `visit_map` is monomorphised here at its two access
types (`DeserializerMapVisitor` and `EnumMapVisitor`). -/
structure Visitor (α : Type) where
  visitBool : BoolT → Except Error α
  visitI8 : Int → Except Error α
  visitI16 : Int → Except Error α
  visitI32 : Int → Except Error α
  visitI64 : Int → Except Error α
  visitU8 : Nat → Except Error α
  visitU16 : Nat → Except Error α
  visitU32 : Nat → Except Error α
  visitU64 : Nat → Except Error α
  visitF32 : Nat → Except Error α
  visitF64 : Nat → Except Error α
  visitChar : CharT → Except Error α
  visitStr : Name → Except Error α
  visitBorrowedStr : Name → Except Error α
  visitString : Name → Except Error α
  visitBytes : ByteList → Except Error α
  visitBorrowedBytes : ByteList → Except Error α
  visitByteBuf : ByteList → Except Error α
  visitNone : Except Error α
  visitUnit : Except Error α
  visitSome : List Token → Except Error (α × List Token)
  visitNewtypeStruct : List Token → Except Error (α × List Token)
  visitSeq : DeserializerSeqVisitor → Except Error (α × DeserializerSeqVisitor)
  visitMap : DeserializerMapVisitor → Except Error (α × DeserializerMapVisitor)
  visitEnumMap : EnumMapVisitor → Except Error (α × EnumMapVisitor)
  visitEnum : List Token → Except Error (α × List Token)

/-- A visitor whose every method fails, standing in for serde's defaulted
`Visitor` methods (each defaults to an invalid-type error); concrete
visitors override the fields they support. -/
def Visitor.fail (α : Type) : Visitor α :=
  { visitBool := fun _ => .error (.Message "invalid type")
    visitI8 := fun _ => .error (.Message "invalid type")
    visitI16 := fun _ => .error (.Message "invalid type")
    visitI32 := fun _ => .error (.Message "invalid type")
    visitI64 := fun _ => .error (.Message "invalid type")
    visitU8 := fun _ => .error (.Message "invalid type")
    visitU16 := fun _ => .error (.Message "invalid type")
    visitU32 := fun _ => .error (.Message "invalid type")
    visitU64 := fun _ => .error (.Message "invalid type")
    visitF32 := fun _ => .error (.Message "invalid type")
    visitF64 := fun _ => .error (.Message "invalid type")
    visitChar := fun _ => .error (.Message "invalid type")
    visitStr := fun _ => .error (.Message "invalid type")
    visitBorrowedStr := fun _ => .error (.Message "invalid type")
    visitString := fun _ => .error (.Message "invalid type")
    visitBytes := fun _ => .error (.Message "invalid type")
    visitBorrowedBytes := fun _ => .error (.Message "invalid type")
    visitByteBuf := fun _ => .error (.Message "invalid type")
    visitNone := .error (.Message "invalid type")
    visitUnit := .error (.Message "invalid type")
    visitSome := fun _ => .error (.Message "invalid type")
    visitNewtypeStruct := fun _ => .error (.Message "invalid type")
    visitSeq := fun _ => .error (.Message "invalid type")
    visitMap := fun _ => .error (.Message "invalid type")
    visitEnumMap := fun _ => .error (.Message "invalid type")
    visitEnum := fun _ => .error (.Message "invalid type") }

/-- `Deserializer::visit_seq` (de.rs:43-59): hand the sub-decoder to the
visitor, then independently consume and verify the terminator. -/
def Deserializer.visitSeq {α : Type} (V : Visitor α) (len : Option Nat)
    (sep endTok : Token) (tokens : List Token) :
    Except Error (α × List Token) :=
  match V.visitSeq ⟨tokens, len, sep, endTok⟩ with
  | .ok (value, s) =>
      match expectToken endTok s.tokens with
      | .ok rest => .ok (value, rest)
      | .error e => .error e
  | .error e => .error e

/-- `Deserializer::visit_map` (de.rs:61-77). -/
def Deserializer.visitMap {α : Type} (V : Visitor α) (len : Option Nat)
    (sep endTok : Token) (tokens : List Token) :
    Except Error (α × List Token) :=
  match V.visitMap ⟨tokens, len, sep, endTok⟩ with
  | .ok (value, s) =>
      match expectToken endTok s.tokens with
      | .ok rest => .ok (value, rest)
      | .error e => .error e
  | .error e => .error e

/-- The shared arm of generic dispatch for `EnumStart` / `EnumNewType` /
`EnumSeqStart` / `EnumMapStart` (de.rs:136-141):
`visitor.visit_map(EnumMapVisitor::new(self, variant))`. -/
def Deserializer.visitEnumMapArm {α : Type} (V : Visitor α) (variant : Name)
    (rest : List Token) : Except Error (α × List Token) :=
  match V.visitEnumMap ⟨rest, some variant⟩ with
  | .ok (value, s) => .ok (value, s.tokens)
  | .error e => .error e

/-- `Deserializer::deserialize` (de.rs:88-145), the generic dispatch:
consume the next token and route on it. -/
def deserialize {α : Type} (V : Visitor α) (tokens : List Token) :
    Except Error (α × List Token) :=
  match nextToken tokens with
  | none => .error .EndOfTokens
  | some (t, rest) =>
    match t with
    | .Bool v => (V.visitBool v).map (fun a => (a, rest))
    | .I8 v => (V.visitI8 v).map (fun a => (a, rest))
    | .I16 v => (V.visitI16 v).map (fun a => (a, rest))
    | .I32 v => (V.visitI32 v).map (fun a => (a, rest))
    | .I64 v => (V.visitI64 v).map (fun a => (a, rest))
    | .U8 v => (V.visitU8 v).map (fun a => (a, rest))
    | .U16 v => (V.visitU16 v).map (fun a => (a, rest))
    | .U32 v => (V.visitU32 v).map (fun a => (a, rest))
    | .U64 v => (V.visitU64 v).map (fun a => (a, rest))
    | .F32 v => (V.visitF32 v).map (fun a => (a, rest))
    | .F64 v => (V.visitF64 v).map (fun a => (a, rest))
    | .Char v => (V.visitChar v).map (fun a => (a, rest))
    | .Str v => (V.visitStr v).map (fun a => (a, rest))
    | .BorrowedStr v => (V.visitBorrowedStr v).map (fun a => (a, rest))
    | .String v => (V.visitString v).map (fun a => (a, rest))
    | .Bytes v => (V.visitBytes v).map (fun a => (a, rest))
    | .BorrowedBytes v => (V.visitBorrowedBytes v).map (fun a => (a, rest))
    | .ByteBuf v => (V.visitByteBuf v).map (fun a => (a, rest))
    | .Option false => V.visitNone.map (fun a => (a, rest))
    | .Option true => V.visitSome rest
    | .Unit => V.visitUnit.map (fun a => (a, rest))
    | .UnitStruct _ => V.visitUnit.map (fun a => (a, rest))
    | .SeqStart len => Deserializer.visitSeq V len .SeqSep .SeqEnd rest
    | .SeqArrayStart len =>
        Deserializer.visitSeq V (some len) .SeqSep .SeqEnd rest
    | .TupleStart len =>
        Deserializer.visitSeq V (some len) .TupleSep .TupleEnd rest
    | .TupleStructStart _ len =>
        Deserializer.visitSeq V (some len) .TupleStructSep .TupleStructEnd rest
    | .MapStart len => Deserializer.visitMap V len .MapSep .MapEnd rest
    | .StructStart _ len =>
        Deserializer.visitMap V (some len) .StructSep .StructEnd rest
    | .EnumUnit _ variant => (V.visitStr variant).map (fun a => (a, rest))
    | .EnumStart variant => Deserializer.visitEnumMapArm V variant rest
    | .EnumNewType _ variant => Deserializer.visitEnumMapArm V variant rest
    | .EnumSeqStart _ variant _ => Deserializer.visitEnumMapArm V variant rest
    | .EnumMapStart _ variant _ => Deserializer.visitEnumMapArm V variant rest
    | _ => .error (.UnexpectedToken t)

/-- `deserialize_option` (de.rs:149-165): peek, treating a bare `Unit` or
`Option(false)` as no value (consumed), `Option(true)` as present
(marker consumed, value follows), anything else as present without
consuming, and an empty stream as end-of-stream. -/
def deserializeOption {α : Type} (V : Visitor α) (tokens : List Token) :
    Except Error (α × List Token) :=
  match tokens.head? with
  | some .Unit => V.visitNone.map (fun a => (a, tokens.tail))
  | some (.Option false) => V.visitNone.map (fun a => (a, tokens.tail))
  | some (.Option true) => V.visitSome tokens.tail
  | some _ => V.visitSome tokens
  | none => .error .EndOfTokens

/-- `deserialize_enum` (de.rs:167-192).  A matching `EnumStart` is
consumed and variant selection is delegated
(`visitor.visit_enum(DeserializerEnumVisitor ...)`, modelled by the
visitor's `visitEnum` field); a matching direct variant-start token is
peeked but not consumed; any other token — including a name mismatch on
any of these five token kinds, whose guard fails into the catch-all arm —
is consumed and reported as an unexpected token. -/
def deserializeEnum {α : Type} (name : Name) (V : Visitor α)
    (tokens : List Token) : Except Error (α × List Token) :=
  match nextToken tokens with
  | none => .error .EndOfTokens
  | some (t, rest) =>
    match t with
    | .EnumStart n =>
        if name = n then V.visitEnum rest
        else .error (.UnexpectedToken t)
    | .EnumUnit n _ =>
        if name = n then V.visitEnum (t :: rest)
        else .error (.UnexpectedToken t)
    | .EnumNewType n _ =>
        if name = n then V.visitEnum (t :: rest)
        else .error (.UnexpectedToken t)
    | .EnumSeqStart n _ _ =>
        if name = n then V.visitEnum (t :: rest)
        else .error (.UnexpectedToken t)
    | .EnumMapStart n _ _ =>
        if name = n then V.visitEnum (t :: rest)
        else .error (.UnexpectedToken t)
    | _ => .error (.UnexpectedToken t)

/-- `deserialize_unit_struct` (de.rs:194-209). -/
def deserializeUnitStruct {α : Type} (name : Name) (V : Visitor α)
    (tokens : List Token) : Except Error (α × List Token) :=
  match nextToken tokens with
  | none => .error .EndOfTokens
  | some (t, rest) =>
    match t with
    | .UnitStruct n =>
        if name = n then V.visitUnit.map (fun a => (a, rest))
        else .error (.InvalidName n)
    | _ => deserialize V (t :: rest)

/-- `deserialize_newtype_struct` (de.rs:211-226). -/
def deserializeNewtypeStruct {α : Type} (name : Name) (V : Visitor α)
    (tokens : List Token) : Except Error (α × List Token) :=
  match nextToken tokens with
  | none => .error .EndOfTokens
  | some (t, rest) =>
    match t with
    | .StructNewType n =>
        if name = n then V.visitNewtypeStruct rest
        else .error (.InvalidName n)
    | _ => deserialize V (t :: rest)

/-- `deserialize_seq_fixed_size` (de.rs:228-239): a `SeqArrayStart` is
consumed (its declared length is matched by a wildcard) and the body is
decoded with the caller's `len`; anything else falls through to generic
dispatch. -/
def deserializeSeqFixedSize {α : Type} (len : Nat) (V : Visitor α)
    (tokens : List Token) : Except Error (α × List Token) :=
  match nextToken tokens with
  | none => .error .EndOfTokens
  | some (t, rest) =>
    match t with
    | .SeqArrayStart _ =>
        Deserializer.visitSeq V (some len) .SeqSep .SeqEnd rest
    | _ => deserialize V (t :: rest)

/-- `deserialize_tuple` (de.rs:241-272). -/
def deserializeTuple {α : Type} (len : Nat) (V : Visitor α)
    (tokens : List Token) : Except Error (α × List Token) :=
  match nextToken tokens with
  | none => .error .EndOfTokens
  | some (t, rest) =>
    match t with
    | .Unit => V.visitUnit.map (fun a => (a, rest))
    | .UnitStruct _ => V.visitUnit.map (fun a => (a, rest))
    | .SeqStart _ => Deserializer.visitSeq V (some len) .SeqSep .SeqEnd rest
    | .SeqArrayStart _ =>
        Deserializer.visitSeq V (some len) .SeqSep .SeqEnd rest
    | .TupleStart _ =>
        Deserializer.visitSeq V (some len) .TupleSep .TupleEnd rest
    | .TupleStructStart _ _ =>
        Deserializer.visitSeq V (some len) .TupleStructSep .TupleStructEnd rest
    | _ => deserialize V (t :: rest)

/-- `deserialize_tuple_struct` (de.rs:274-320). -/
def deserializeTupleStruct {α : Type} (name : Name) (len : Nat)
    (V : Visitor α) (tokens : List Token) : Except Error (α × List Token) :=
  match nextToken tokens with
  | none => .error .EndOfTokens
  | some (t, rest) =>
    match t with
    | .Unit => V.visitUnit.map (fun a => (a, rest))
    | .UnitStruct n =>
        if name = n then V.visitUnit.map (fun a => (a, rest))
        else .error (.InvalidName n)
    | .SeqStart _ => Deserializer.visitSeq V (some len) .SeqSep .SeqEnd rest
    | .SeqArrayStart _ =>
        Deserializer.visitSeq V (some len) .SeqSep .SeqEnd rest
    | .TupleStart _ =>
        Deserializer.visitSeq V (some len) .TupleSep .TupleEnd rest
    | .TupleStructStart n _ =>
        if name = n then
          Deserializer.visitSeq V (some len) .TupleStructSep .TupleStructEnd
            rest
        else .error (.InvalidName n)
    | _ => deserialize V (t :: rest)

/-- `deserialize_struct` (de.rs:322-348): a matching `StructStart` is
consumed (its declared field count matched by a wildcard) and the body is
decoded through the map protocol with `StructSep`/`StructEnd`; a
`MapStart` is consumed and the body decoded with `MapSep`/`MapEnd`; in
both cases the remaining-length hint is the requested field count. -/
def deserializeStruct {α : Type} (name : Name) (fields : List Name)
    (V : Visitor α) (tokens : List Token) : Except Error (α × List Token) :=
  match nextToken tokens with
  | none => .error .EndOfTokens
  | some (t, rest) =>
    match t with
    | .StructStart n _ =>
        if name = n then
          Deserializer.visitMap V (some fields.length) .StructSep .StructEnd
            rest
        else .error (.InvalidName n)
    | .MapStart _ =>
        Deserializer.visitMap V (some fields.length) .MapSep .MapEnd rest
    | _ => deserialize V (t :: rest)

/-- `<DeserializerEnumVisitor as VariantVisitor>::visit_tuple`
(de.rs:483-508): an `EnumSeqStart` is consumed, its declared arity must
equal the caller's `len`, else the consumed start token is reported; a
`SeqStart` carrying a declared length is consumed with the same arity
check; anything else goes to generic dispatch. -/
def DeserializerEnumVisitor.visitTuple {α : Type} (len : Nat)
    (V : Visitor α) (tokens : List Token) : Except Error (α × List Token) :=
  match tokens.head? with
  | some (.EnumSeqStart n v enumLen) =>
      if len = enumLen then
        Deserializer.visitSeq V (some len) .EnumSeqSep .EnumSeqEnd
          tokens.tail
      else .error (.UnexpectedToken (.EnumSeqStart n v enumLen))
  | some (.SeqStart (some enumLen)) =>
      if len = enumLen then
        Deserializer.visitSeq V (some len) .SeqSep .SeqEnd tokens.tail
      else .error (.UnexpectedToken (.SeqStart (some enumLen)))
  | some _ => deserialize V tokens
  | none => .error .EndOfTokens

/-- `internal_assert_de_tokens` (assert.rs:202-218): run the fresh decode
(`d` stands for `T::deserialize(&mut de)`); panic — modelled as `none` —
if it errs, if the result differs from `value`, or if tokens remain;
otherwise return the decoded value. -/
def internalAssertDeTokens {T : Type} [DecidableEq T]
    (d : List Token → Except Error (T × List Token))
    (value : T) (tokens : List Token) : Option T :=
  match d tokens with
  | .ok (v, rest) =>
      if v = value then
        if remaining rest > 0 then none else some v
      else none
  | .error _ => none

/-- `internal_assert_de_in_place_tokens` (assert.rs:220-236): run the
in-place decode from the starting value `inPlace` (`dip` stands for
`T::deserialize_in_place(&mut de, &mut in_place)`, returning the mutated
value); the check passes only when it succeeds, the mutated value equals
`value`, and no tokens remain. -/
def internalAssertDeInPlaceTokens {T : Type} [DecidableEq T]
    (dip : T → List Token → Except Error (T × List Token))
    (value : T) (inPlace : T) (tokens : List Token) : Bool :=
  match dip inPlace tokens with
  | .ok (v, rest) =>
      if v = value then
        if remaining rest > 0 then false else true
      else false
  | .error _ => false

/-- `assert_de_tokens` (assert.rs:156-162): the fresh path first, whose
result is then the starting value of the in-place path over a fresh
cursor on the same tokens. -/
def assertDeTokens {T : Type} [DecidableEq T]
    (d : List Token → Except Error (T × List Token))
    (dip : T → List Token → Except Error (T × List Token))
    (value : T) (tokens : List Token) : Bool :=
  match internalAssertDeTokens d value tokens with
  | some inPlace => internalAssertDeInPlaceTokens dip value inPlace tokens
  | none => false

/-- One encoded map/struct entry: the tokens of the key, the value the key
decoder yields for them, and likewise for the value. -/
structure EncEntry (κ ν : Type) where
  ktoks : List Token
  key : κ
  vtoks : List Token
  val : ν

/-- The body of an encoded map/struct: each entry is preceded by the
flavor's separator (the terminator is appended by the caller). -/
def encEntries {κ ν : Type} (sep : Token) : List (EncEntry κ ν) → List Token
  | [] => []
  | e :: es => sep :: (e.ktoks ++ (e.vtoks ++ encEntries sep es))

/-- The map-entry loop a well-behaved (serde-derived) visitor runs inside
`visit_map`: call `visit_key_seed` until it signals no more entries,
decoding a value after each key.  Structural recursion is on the fuel;
`tokens.length + 1` always suffices because each iteration consumes at
least the separator. -/
def mapLoop {κ ν : Type} (keyDe : List Token → Except Error (κ × List Token))
    (valDe : List Token → Except Error (ν × List Token)) :
    Nat → DeserializerMapVisitor →
    Except Error (List (κ × ν) × DeserializerMapVisitor)
  | 0, _ => .error .EndOfTokens
  | fuel + 1, s =>
    match DeserializerMapVisitor.visitKeySeed keyDe s with
    | .error e => .error e
    | .ok (none, s1) => .ok ([], s1)
    | .ok (some k, s1) =>
      match DeserializerMapVisitor.visitValueSeed valDe s1 with
      | .error e => .error e
      | .ok (v, s2) =>
        match mapLoop keyDe valDe fuel s2 with
        | .ok (entries, s3) => .ok ((k, v) :: entries, s3)
        | .error e => .error e

/-- The canonical struct visitor: drive the map-entry loop and build the
struct value from the decoded entries. -/
def structVisitor {κ ν α : Type} (build : List (κ × ν) → α)
    (keyDe : List Token → Except Error (κ × List Token))
    (valDe : List Token → Except Error (ν × List Token)) : Visitor α :=
  { Visitor.fail α with
    visitMap := fun s =>
      match mapLoop keyDe valDe (s.tokens.length + 1) s with
      | .ok (entries, s1) => .ok (build entries, s1)
      | .error e => .error e }

/-- The visitor a `bool` decode supplies: only `visit_bool` succeeds. -/
def boolVisitor : Visitor Bool :=
  { Visitor.fail Bool with visitBool := fun b => .ok b }

/-- The visitor a fixed two-element `bool` array decode supplies: request
exactly two elements from the sequence sub-decoder and fail if it signals
no-more-elements early (serde's invalid-length error lives in serde core,
modelled as a message error). -/
def arr2Visitor : Visitor (Bool × Bool) :=
  { Visitor.fail (Bool × Bool) with
    visitSeq := fun s =>
      match DeserializerSeqVisitor.visitSeed (deserialize boolVisitor) s with
      | .ok (some a, s1) =>
        match DeserializerSeqVisitor.visitSeed (deserialize boolVisitor)
            s1 with
        | .ok (some b, s2) => .ok ((a, b), s2)
        | .ok (none, _) => .error (.Message "invalid length 1")
        | .error e => .error e
      | .ok (none, _) => .error (.Message "invalid length 0")
      | .error e => .error e }

/-- The visitor a string decode supplies: only the string visits succeed. -/
def strVisitor : Visitor Name :=
  { Visitor.fail Name with
    visitStr := fun s => .ok s
    visitBorrowedStr := fun s => .ok s
    visitString := fun s => .ok s }

/-- A concrete two-entry struct body (fields `a` and `b` holding bools),
used to evaluate the struct-as-map coercion on a closed input. -/
def esEx : List (EncEntry Name Bool) :=
  [⟨[.Str "a"], "a", [.Bool true], true⟩,
   ⟨[.Str "b"], "b", [.Bool false], false⟩]

end SerdeTest

namespace SerdeTest

/-- C8: `expect_token(t)` consumes one token and succeeds iff the consumed
token equals `t`; a different consumed token yields an unexpected-token
error carrying the token actually seen, and an empty stream yields an
end-of-stream error. -/
theorem expect_token_consume_and_check (t : Token) (tokens : List Token) :
    (tokens = [] → expectToken t tokens = .error .EndOfTokens)
    ∧ (∀ hd rest, tokens = hd :: rest →
        (expectToken t tokens = .ok rest ↔ hd = t)
        ∧ (hd ≠ t → expectToken t tokens = .error (.UnexpectedToken hd))) := by
  constructor
  · rintro rfl
    rfl
  · rintro hd rest rfl
    constructor
    · simp only [expectToken, nextToken]
      by_cases h : t = hd
      · subst h
        simp
      · rw [if_neg h]
        simp only [reduceCtorEq, false_iff]
        exact fun hh => h hh.symm
    · intro hne
      simp only [expectToken, nextToken]
      rw [if_neg (fun h => hne h.symm)]

/-- C2: a decode request for an optional value treats a bare `Unit` or the
explicit absent marker `Option(false)` as no value, consuming that single
token; the present marker `Option(true)` is consumed and the held value is
decoded from the remaining tokens; any other first token decodes as
present without consuming a marker; an empty list is an end-of-stream
error. -/
theorem deserialize_option_cases {α : Type} (V : Visitor α)
    (tokens : List Token) :
    (tokens = [] → deserializeOption V tokens = .error .EndOfTokens)
    ∧ (∀ rest, tokens = .Unit :: rest →
        deserializeOption V tokens = V.visitNone.map (fun a => (a, rest)))
    ∧ (∀ rest, tokens = .Option false :: rest →
        deserializeOption V tokens = V.visitNone.map (fun a => (a, rest)))
    ∧ (∀ rest, tokens = .Option true :: rest →
        deserializeOption V tokens = V.visitSome rest)
    ∧ (∀ hd rest, tokens = hd :: rest → hd ≠ .Unit →
        hd ≠ .Option false → hd ≠ .Option true →
        deserializeOption V tokens = V.visitSome (hd :: rest)) := by
  refine ⟨?_, ?_, ?_, ?_, ?_⟩
  · rintro rfl
    rfl
  · rintro rest rfl
    rfl
  · rintro rest rfl
    rfl
  · rintro rest rfl
    rfl
  · rintro hd rest rfl h1 h2 h3
    cases hd
    case Unit => exact absurd rfl h1
    case Option b =>
      cases b
      · exact absurd rfl h2
      · exact absurd rfl h3
    all_goals rfl

/-- Witness for C2: the option protocol at concrete inputs. -/
theorem deserialize_option_cases_witness :
    deserializeOption boolVisitor [.Option true, .Bool true]
      = boolVisitor.visitSome [.Bool true]
    ∧ deserializeOption boolVisitor [.Bool true]
      = boolVisitor.visitSome [.Bool true]
    ∧ deserializeOption boolVisitor [.Unit]
      = boolVisitor.visitNone.map (fun a => (a, []))
    ∧ deserializeOption boolVisitor [] = .error .EndOfTokens := by
  refine ⟨?_, ?_, ?_, ?_⟩
  · exact (deserialize_option_cases boolVisitor
      [.Option true, .Bool true]).2.2.2.1 [.Bool true] rfl
  · exact (deserialize_option_cases boolVisitor
      [.Bool true]).2.2.2.2 (.Bool true) [] rfl (by decide) (by decide)
      (by decide)
  · exact (deserialize_option_cases boolVisitor [.Unit]).2.1 [] rfl
  · exact (deserialize_option_cases boolVisitor []).1 rfl

/-- C10: for a struct decode whose first token is a matching
`StructStart`, the declared field count on the token is never compared to
anything — decoding is the same for every declared count — and the
remaining-length hint handed to the visitor is the requested field count,
as `size_hint` reports. -/
theorem struct_declared_count_ignored {α : Type} (V : Visitor α)
    (name : Name) (fields : List Name) (m m' : Nat) (rest : List Token) :
    deserializeStruct name fields V (.StructStart name m :: rest)
      = Deserializer.visitMap V (some fields.length) .StructSep .StructEnd rest
    ∧ deserializeStruct name fields V (.StructStart name m :: rest)
      = deserializeStruct name fields V (.StructStart name m' :: rest)
    ∧ DeserializerMapVisitor.sizeHint
        ⟨rest, some fields.length, .StructSep, .StructEnd⟩
      = (fields.length, some fields.length) := by
  refine ⟨?_, ?_, rfl⟩
  · simp [deserializeStruct, nextToken]
  · simp [deserializeStruct, nextToken]

/-- Counterexample for C3: a fixed two-element array decode whose first
token is `SeqArrayStart(3)` — declared arity 3, caller arity 2 — does not
fail: the declared arity is ignored and the two elements present decode
successfully. -/
theorem fixed_size_arity_mismatch_not_checked :
    deserializeSeqFixedSize 2 arr2Visitor
        [.SeqArrayStart 3, .SeqSep, .Bool true, .SeqSep, .Bool false,
         .SeqEnd]
      = .ok ((true, false), []) := by
  rfl

/-- C3 as amended: `deserialize_seq_fixed_size` and `deserialize_tuple`
ignore the declared arity carried on the start marker entirely — the
marker is consumed and the body is decoded with the caller arity and the
flavor's separator/terminator for every declared arity, mismatches
surfacing only through the separator/terminator protocol, not as an
unexpected-token error on the start marker. -/
theorem fixed_size_and_tuple_ignore_declared_arity {α : Type} (len : Nat)
    (V : Visitor α) (m m' : Nat) (lo : Option Nat) (nm : Name)
    (rest : List Token) :
    (deserializeSeqFixedSize len V (.SeqArrayStart m :: rest)
       = Deserializer.visitSeq V (some len) .SeqSep .SeqEnd rest)
    ∧ (deserializeSeqFixedSize len V (.SeqArrayStart m :: rest)
       = deserializeSeqFixedSize len V (.SeqArrayStart m' :: rest))
    ∧ (deserializeTuple len V (.SeqStart lo :: rest)
       = Deserializer.visitSeq V (some len) .SeqSep .SeqEnd rest)
    ∧ (deserializeTuple len V (.SeqArrayStart m :: rest)
       = Deserializer.visitSeq V (some len) .SeqSep .SeqEnd rest)
    ∧ (deserializeTuple len V (.TupleStart m :: rest)
       = Deserializer.visitSeq V (some len) .TupleSep .TupleEnd rest)
    ∧ (deserializeTuple len V (.TupleStructStart nm m :: rest)
       = Deserializer.visitSeq V (some len) .TupleStructSep .TupleStructEnd
           rest) := by
  exact ⟨rfl, rfl, rfl, rfl, rfl, rfl⟩

/-- Counterexample for C6: an `EnumStart` whose name differs from the
requested one fails with an unexpected-token error carrying the whole
token, not with an invalid-name error carrying the name seen. -/
theorem enum_name_mismatch_not_invalid_name :
    deserializeEnum "A" (Visitor.fail Bool) [.EnumStart "B"]
      = .error (.UnexpectedToken (.EnumStart "B"))
    ∧ Error.UnexpectedToken (.EnumStart "B") ≠ Error.InvalidName "B" := by
  exact ⟨rfl, by decide⟩

/-- C6 as amended: a name mismatch on a unit-record, newtype-record,
tuple-record or struct start token fails with an invalid-name error
carrying the name actually seen; a name mismatch on any enum start token
(enum-start or any direct variant-start) instead fails with an
unexpected-token error carrying the offending token. -/
theorem name_mismatch_errors {α : Type} (V : Visitor α)
    (name n v : Name) (fields : List Name) (l m : Nat)
    (rest : List Token) (h : name ≠ n) :
    (deserializeUnitStruct name V (.UnitStruct n :: rest)
       = .error (.InvalidName n))
    ∧ (deserializeNewtypeStruct name V (.StructNewType n :: rest)
       = .error (.InvalidName n))
    ∧ (deserializeTupleStruct name l V (.TupleStructStart n m :: rest)
       = .error (.InvalidName n))
    ∧ (deserializeStruct name fields V (.StructStart n m :: rest)
       = .error (.InvalidName n))
    ∧ (deserializeEnum name V (.EnumStart n :: rest)
       = .error (.UnexpectedToken (.EnumStart n)))
    ∧ (deserializeEnum name V (.EnumUnit n v :: rest)
       = .error (.UnexpectedToken (.EnumUnit n v)))
    ∧ (deserializeEnum name V (.EnumNewType n v :: rest)
       = .error (.UnexpectedToken (.EnumNewType n v)))
    ∧ (deserializeEnum name V (.EnumSeqStart n v m :: rest)
       = .error (.UnexpectedToken (.EnumSeqStart n v m)))
    ∧ (deserializeEnum name V (.EnumMapStart n v m :: rest)
       = .error (.UnexpectedToken (.EnumMapStart n v m))) := by
  refine ⟨?_, ?_, ?_, ?_, ?_, ?_, ?_, ?_, ?_⟩ <;>
    simp [deserializeUnitStruct, deserializeNewtypeStruct,
      deserializeTupleStruct, deserializeStruct, deserializeEnum,
      nextToken, h]

/-- Witness for C6's amended theorem at concrete names. -/
theorem name_mismatch_errors_witness :
    deserializeUnitStruct "A" (Visitor.fail Bool) [.UnitStruct "B"]
      = .error (.InvalidName "B")
    ∧ deserializeEnum "A" (Visitor.fail Bool) [.EnumUnit "B" "V"]
      = .error (.UnexpectedToken (.EnumUnit "B" "V")) := by
  refine ⟨?_, ?_⟩
  · exact (name_mismatch_errors (Visitor.fail Bool) "A" "B" "V" [] 0 0 []
      (by decide)).1
  · exact (name_mismatch_errors (Visitor.fail Bool) "A" "B" "V" [] 0 0 []
      (by decide)).2.2.2.2.2.1

/-- C7: tuple-shape enum variant decode of caller arity `len`: an
`EnumSeqStart` is consumed, and decoding proceeds with the enum-tuple
separator/terminator when its declared arity equals `len`, else fails with
an unexpected-token error carrying that start token; a `SeqStart` carrying
a declared length is consumed with the same arity check and the generic
sequence separator/terminator; any other pending token goes to the
generic dispatcher; an empty stream is an end-of-stream error. -/
theorem enum_variant_visit_tuple_dispatch {α : Type} (len : Nat)
    (V : Visitor α) (tokens : List Token) :
    (tokens = [] →
       DeserializerEnumVisitor.visitTuple len V tokens
         = .error .EndOfTokens)
    ∧ (∀ n v el rest, tokens = .EnumSeqStart n v el :: rest →
        (len = el →
          DeserializerEnumVisitor.visitTuple len V tokens
            = Deserializer.visitSeq V (some len) .EnumSeqSep .EnumSeqEnd
                rest)
        ∧ (len ≠ el →
            DeserializerEnumVisitor.visitTuple len V tokens
              = .error (.UnexpectedToken (.EnumSeqStart n v el))))
    ∧ (∀ el rest, tokens = .SeqStart (some el) :: rest →
        (len = el →
          DeserializerEnumVisitor.visitTuple len V tokens
            = Deserializer.visitSeq V (some len) .SeqSep .SeqEnd rest)
        ∧ (len ≠ el →
            DeserializerEnumVisitor.visitTuple len V tokens
              = .error (.UnexpectedToken (.SeqStart (some el)))))
    ∧ (∀ hd rest, tokens = hd :: rest →
        (∀ n v el, hd ≠ .EnumSeqStart n v el) →
        (∀ el, hd ≠ .SeqStart (some el)) →
        DeserializerEnumVisitor.visitTuple len V tokens
          = deserialize V tokens) := by
  refine ⟨?_, ?_, ?_, ?_⟩
  · rintro rfl
    rfl
  · rintro n v el rest rfl
    constructor
    · rintro rfl
      simp [DeserializerEnumVisitor.visitTuple]
    · intro hne
      simp [DeserializerEnumVisitor.visitTuple, hne]
  · rintro el rest rfl
    constructor
    · rintro rfl
      simp [DeserializerEnumVisitor.visitTuple]
    · intro hne
      simp [DeserializerEnumVisitor.visitTuple, hne]
  · rintro hd rest rfl h1 h2
    cases hd
    case EnumSeqStart n v el => exact absurd rfl (h1 n v el)
    case SeqStart lo =>
      cases lo with
      | none => rfl
      | some el => exact absurd rfl (h2 el)
    all_goals rfl

/-- Witness for C7: the tuple-shape dispatch at concrete inputs. -/
theorem enum_variant_visit_tuple_dispatch_witness :
    DeserializerEnumVisitor.visitTuple 2 (Visitor.fail Bool)
        [.EnumSeqStart "E" "V" 2]
      = Deserializer.visitSeq (Visitor.fail Bool) (some 2) .EnumSeqSep
          .EnumSeqEnd []
    ∧ DeserializerEnumVisitor.visitTuple 2 (Visitor.fail Bool)
        [.EnumSeqStart "E" "V" 3]
      = .error (.UnexpectedToken (.EnumSeqStart "E" "V" 3))
    ∧ DeserializerEnumVisitor.visitTuple 2 (Visitor.fail Bool)
        [.SeqStart (some 3)]
      = .error (.UnexpectedToken (.SeqStart (some 3)))
    ∧ DeserializerEnumVisitor.visitTuple 2 (Visitor.fail Bool) [.Unit]
      = deserialize (Visitor.fail Bool) [.Unit] := by
  refine ⟨?_, ?_, ?_, ?_⟩
  · exact ((enum_variant_visit_tuple_dispatch 2 (Visitor.fail Bool)
      [.EnumSeqStart "E" "V" 2]).2.1 "E" "V" 2 [] rfl).1 rfl
  · exact ((enum_variant_visit_tuple_dispatch 2 (Visitor.fail Bool)
      [.EnumSeqStart "E" "V" 3]).2.1 "E" "V" 3 [] rfl).2 (by decide)
  · exact ((enum_variant_visit_tuple_dispatch 2 (Visitor.fail Bool)
      [.SeqStart (some 3)]).2.2.1 3 [] rfl).2 (by decide)
  · exact (enum_variant_visit_tuple_dispatch 2 (Visitor.fail Bool)
      [.Unit]).2.2.2 .Unit [] rfl (by intro n v el; simp)
      (by intro el; simp)

/-- C9: generic dispatch routes `EnumStart`, `EnumNewType`, `EnumSeqStart`
and `EnumMapStart` to the enum-as-map visitor, whose first key request
yields the variant name decoded through its string deserializer (clearing
the pending variant, consuming no token) and whose every subsequent key
request reports no more entries without consuming any token. -/
theorem enum_map_visitor_single_entry {α κ : Type} (V : Visitor α)
    (seed : Name → Except Error κ) (nm variant : Name) (l : Nat)
    (ts rest : List Token) :
    (deserialize V (.EnumStart variant :: rest)
       = Deserializer.visitEnumMapArm V variant rest)
    ∧ (deserialize V (.EnumNewType nm variant :: rest)
       = Deserializer.visitEnumMapArm V variant rest)
    ∧ (deserialize V (.EnumSeqStart nm variant l :: rest)
       = Deserializer.visitEnumMapArm V variant rest)
    ∧ (deserialize V (.EnumMapStart nm variant l :: rest)
       = Deserializer.visitEnumMapArm V variant rest)
    ∧ (EnumMapVisitor.visitKeySeed seed ⟨ts, some variant⟩
       = (seed variant).map (fun k => (some k, ⟨ts, none⟩)))
    ∧ (EnumMapVisitor.visitKeySeed seed ⟨ts, none⟩
       = .ok (none, ⟨ts, none⟩)) := by
  refine ⟨rfl, rfl, rfl, rfl, ?_, rfl⟩
  cases hs : seed variant <;>
    simp [EnumMapVisitor.visitKeySeed, hs, Except.map]

/-- C1: each element (or key) request of a sequence/map sub-decode first
peeks: the terminator signals no more elements without consuming; else the
next token is consumed and must equal the separator (any other token
yields an unexpected-token error carrying it, an empty stream an
end-of-stream error), the remaining-length hint is decremented (by
saturating `Nat` subtraction) and the element is decoded recursively by
the seed; and after the visitor stops, the enclosing decoder additionally
consumes one token, checking it equals the terminator. -/
theorem seq_map_sub_decode_protocol {α β : Type}
    (seed : List Token → Except Error (β × List Token))
    (s : DeserializerSeqVisitor) (m : DeserializerMapVisitor)
    (V : Visitor α) (len : Option Nat) (sep endTok : Token)
    (ts : List Token) :
    (s.tokens.head? = some s.endTok →
       DeserializerSeqVisitor.visitSeed seed s = .ok (none, s))
    ∧ (s.tokens = [] →
       DeserializerSeqVisitor.visitSeed seed s = .error .EndOfTokens)
    ∧ (∀ rest, s.tokens = s.sep :: rest → s.sep ≠ s.endTok →
       DeserializerSeqVisitor.visitSeed seed s
         = (seed rest).map (fun p => (some p.1,
             { s with tokens := p.2,
                      len := s.len.map (fun l => l - 1) })))
    ∧ (∀ t rest, s.tokens = t :: rest → t ≠ s.endTok → t ≠ s.sep →
       DeserializerSeqVisitor.visitSeed seed s
         = .error (.UnexpectedToken t))
    ∧ (m.tokens.head? = some m.endTok →
       DeserializerMapVisitor.visitKeySeed seed m = .ok (none, m))
    ∧ (m.tokens = [] →
       DeserializerMapVisitor.visitKeySeed seed m = .error .EndOfTokens)
    ∧ (∀ rest, m.tokens = m.sep :: rest → m.sep ≠ m.endTok →
       DeserializerMapVisitor.visitKeySeed seed m
         = (seed rest).map (fun p => (some p.1,
             { m with tokens := p.2,
                      len := m.len.map (fun l => l - 1) })))
    ∧ (∀ t rest, m.tokens = t :: rest → t ≠ m.endTok → t ≠ m.sep →
       DeserializerMapVisitor.visitKeySeed seed m
         = .error (.UnexpectedToken t))
    ∧ (∀ (a : α) s1, V.visitSeq ⟨ts, len, sep, endTok⟩ = .ok (a, s1) →
       Deserializer.visitSeq V len sep endTok ts
         = (expectToken endTok s1.tokens).map (fun r => (a, r)))
    ∧ (∀ e, V.visitSeq ⟨ts, len, sep, endTok⟩ = .error e →
       Deserializer.visitSeq V len sep endTok ts = .error e)
    ∧ (∀ (a : α) m1, V.visitMap ⟨ts, len, sep, endTok⟩ = .ok (a, m1) →
       Deserializer.visitMap V len sep endTok ts
         = (expectToken endTok m1.tokens).map (fun r => (a, r)))
    ∧ (∀ e, V.visitMap ⟨ts, len, sep, endTok⟩ = .error e →
       Deserializer.visitMap V len sep endTok ts = .error e) := by
  refine ⟨?_, ?_, ?_, ?_, ?_, ?_, ?_, ?_, ?_, ?_, ?_, ?_⟩
  · intro h
    simp [DeserializerSeqVisitor.visitSeed, h]
  · intro h
    simp [DeserializerSeqVisitor.visitSeed, h, nextToken]
  · intro rest h hne
    simp only [DeserializerSeqVisitor.visitSeed, h, List.head?_cons,
      nextToken]
    rw [if_neg (by simpa using hne)]
    simp only [if_true]
    cases hs : seed rest with
    | ok p => simp [Except.map]
    | error e => simp [Except.map]
  · intro t rest h hne hns
    simp only [DeserializerSeqVisitor.visitSeed, h, List.head?_cons,
      nextToken]
    rw [if_neg (by simpa using hne), if_neg hns]
  · intro h
    simp [DeserializerMapVisitor.visitKeySeed, h]
  · intro h
    simp [DeserializerMapVisitor.visitKeySeed, h, nextToken]
  · intro rest h hne
    simp only [DeserializerMapVisitor.visitKeySeed, h, List.head?_cons,
      nextToken]
    rw [if_neg (by simpa using hne)]
    simp only [if_true]
    cases hs : seed rest with
    | ok p => simp [Except.map]
    | error e => simp [Except.map]
  · intro t rest h hne hns
    simp only [DeserializerMapVisitor.visitKeySeed, h, List.head?_cons,
      nextToken]
    rw [if_neg (by simpa using hne), if_neg hns]
  · intro a s1 h
    simp only [Deserializer.visitSeq, h]
    cases hexp : expectToken endTok s1.tokens <;> simp [hexp, Except.map]
  · intro e h
    simp [Deserializer.visitSeq, h]
  · intro a m1 h
    simp only [Deserializer.visitMap, h]
    cases hexp : expectToken endTok m1.tokens <;> simp [hexp, Except.map]
  · intro e h
    simp [Deserializer.visitMap, h]

/-- Witness for C1: the sub-decoder protocol at concrete inputs. -/
theorem seq_map_sub_decode_protocol_witness :
    DeserializerSeqVisitor.visitSeed (deserialize boolVisitor)
        ⟨[.SeqEnd], some 2, .SeqSep, .SeqEnd⟩
      = .ok (none, ⟨[.SeqEnd], some 2, .SeqSep, .SeqEnd⟩)
    ∧ DeserializerSeqVisitor.visitSeed (deserialize boolVisitor)
        ⟨[.SeqSep, .Bool true, .SeqEnd], some 2, .SeqSep, .SeqEnd⟩
      = ((deserialize boolVisitor) [.Bool true, .SeqEnd]).map
          (fun p => (some p.1,
            ⟨p.2, (some 2 : Option Nat).map (fun l => l - 1), .SeqSep,
             .SeqEnd⟩))
    ∧ DeserializerSeqVisitor.visitSeed (deserialize boolVisitor)
        ⟨[.MapSep], some 2, .SeqSep, .SeqEnd⟩
      = .error (.UnexpectedToken .MapSep)
    ∧ DeserializerMapVisitor.visitKeySeed (deserialize boolVisitor)
        ⟨[], none, .MapSep, .MapEnd⟩
      = .error .EndOfTokens
    ∧ Deserializer.visitSeq (Visitor.fail Bool) none .SeqSep .SeqEnd []
      = .error (.Message "invalid type") := by
  refine ⟨?_, ?_, ?_, ?_, ?_⟩
  · exact (seq_map_sub_decode_protocol (deserialize boolVisitor)
      ⟨[.SeqEnd], some 2, .SeqSep, .SeqEnd⟩ ⟨[], none, .MapSep, .MapEnd⟩
      (Visitor.fail Bool) none .SeqSep .SeqEnd []).1 rfl
  · exact (seq_map_sub_decode_protocol (deserialize boolVisitor)
      ⟨[.SeqSep, .Bool true, .SeqEnd], some 2, .SeqSep, .SeqEnd⟩
      ⟨[], none, .MapSep, .MapEnd⟩
      (Visitor.fail Bool) none .SeqSep .SeqEnd []).2.2.1
      [.Bool true, .SeqEnd] rfl (by decide)
  · exact (seq_map_sub_decode_protocol (deserialize boolVisitor)
      ⟨[.MapSep], some 2, .SeqSep, .SeqEnd⟩ ⟨[], none, .MapSep, .MapEnd⟩
      (Visitor.fail Bool) none .SeqSep .SeqEnd []).2.2.2.1
      .MapSep [] rfl (by decide) (by decide)
  · exact (seq_map_sub_decode_protocol (deserialize boolVisitor)
      ⟨[.SeqEnd], some 2, .SeqSep, .SeqEnd⟩ ⟨[], none, .MapSep, .MapEnd⟩
      (Visitor.fail Bool) none .SeqSep .SeqEnd []).2.2.2.2.2.1 rfl
  · exact (seq_map_sub_decode_protocol (deserialize boolVisitor)
      ⟨[.SeqEnd], some 2, .SeqSep, .SeqEnd⟩ ⟨[], none, .MapSep, .MapEnd⟩
      (Visitor.fail Bool) none .SeqSep .SeqEnd []).2.2.2.2.2.2.2.2.2.1
      (.Message "invalid type") rfl

lemma encEntries_length_ge {κ ν : Type} (sep : Token)
    (es : List (EncEntry κ ν)) :
    es.length ≤ (encEntries sep es).length := by
  induction es with
  | nil => simp [encEntries]
  | cons e es ih =>
    simp only [encEntries, List.length_cons, List.length_append]
    omega

/-- Running the map-entry loop over an encoded body whose every key and
value token run is consumed exactly by its decoder yields exactly the
entries' decoded pairs, stops at the terminator without consuming it, and
decrements the length hint once per entry. -/
lemma mapLoop_encEntries {κ ν : Type}
    (keyDe : List Token → Except Error (κ × List Token))
    (valDe : List Token → Except Error (ν × List Token))
    (sep endTok : Token) (hsep : sep ≠ endTok)
    (es : List (EncEntry κ ν))
    (hk : ∀ e ∈ es, ∀ r, keyDe (e.ktoks ++ r) = .ok (e.key, r))
    (hv : ∀ e ∈ es, ∀ r, valDe (e.vtoks ++ r) = .ok (e.val, r)) :
    ∀ (fuel : Nat), es.length < fuel →
    ∀ (len : Option Nat) (tail : List Token),
      mapLoop keyDe valDe fuel
          ⟨encEntries sep es ++ endTok :: tail, len, sep, endTok⟩
        = .ok (es.map (fun e => (e.key, e.val)),
            ⟨endTok :: tail, len.map (fun l => l - es.length), sep,
             endTok⟩) := by
  induction es with
  | nil =>
    intro fuel hf len tail
    match fuel, hf with
    | fuel + 1, _ =>
      simp [mapLoop, DeserializerMapVisitor.visitKeySeed, encEntries]
  | cons e es ih =>
    intro fuel hf len tail
    match fuel, hf with
    | fuel + 1, hf =>
      have hk1 := hk e (by simp)
      have hv1 := hv e (by simp)
      have hkrec : ∀ e1 ∈ es, ∀ r, keyDe (e1.ktoks ++ r) = .ok (e1.key, r) :=
        fun e1 he1 => hk e1 (by simp [he1])
      have hvrec : ∀ e1 ∈ es, ∀ r, valDe (e1.vtoks ++ r) = .ok (e1.val, r) :=
        fun e1 he1 => hv e1 (by simp [he1])
      have hfl : es.length < fuel := by
        simpa using Nat.lt_of_succ_lt_succ hf
      simp only [encEntries, List.cons_append, List.append_assoc]
      simp only [mapLoop, DeserializerMapVisitor.visitKeySeed,
        List.head?_cons, nextToken]
      rw [if_neg (by simpa using hsep), if_pos trivial, hk1]
      simp only [DeserializerMapVisitor.visitValueSeed]
      rw [hv1]
      simp only []
      rw [ih hkrec hvrec fuel hfl (len.map (fun l => l - 1)) tail]
      cases len with
      | none => rfl
      | some l =>
        have hsub : l - 1 - es.length = l - (es.length + 1) := by omega
        simp [hsub]

/-- C4: a struct decode whose first token is a generic `MapStart` consumes
it and decodes through the map protocol with the generic map
separator/terminator and the requested field count as hint; over any
encoded entry body, the plain-map stream and the struct-wrapped stream
decode to the same struct value with the same remaining tokens — the
struct-as-plain-map coercion succeeds. -/
theorem struct_accepts_plain_map {κ ν α : Type}
    (build : List (κ × ν) → α)
    (keyDe : List Token → Except Error (κ × List Token))
    (valDe : List Token → Except Error (ν × List Token))
    (name : Name) (fields : List Name) (m : Nat) (l : Option Nat)
    (tail rest : List Token) (V : Visitor α)
    (es : List (EncEntry κ ν))
    (hk : ∀ e ∈ es, ∀ r, keyDe (e.ktoks ++ r) = .ok (e.key, r))
    (hv : ∀ e ∈ es, ∀ r, valDe (e.vtoks ++ r) = .ok (e.val, r)) :
    deserializeStruct name fields V (.MapStart l :: rest)
      = Deserializer.visitMap V (some fields.length) .MapSep .MapEnd rest
    ∧ deserializeStruct name fields (structVisitor build keyDe valDe)
        (.StructStart name m ::
          (encEntries .StructSep es ++ .StructEnd :: tail))
      = .ok (build (es.map (fun e => (e.key, e.val))), tail)
    ∧ deserializeStruct name fields (structVisitor build keyDe valDe)
        (.MapStart l :: (encEntries .MapSep es ++ .MapEnd :: tail))
      = .ok (build (es.map (fun e => (e.key, e.val))), tail) := by
  refine ⟨rfl, ?_, ?_⟩
  · have hlen : es.length <
        (encEntries Token.StructSep es ++ Token.StructEnd :: tail).length
          + 1 := by
      have h1 := encEntries_length_ge (κ := κ) (ν := ν) Token.StructSep es
      simp only [List.length_append, List.length_cons]
      omega
    have hml := mapLoop_encEntries keyDe valDe .StructSep .StructEnd
      (by decide) es hk hv
      ((encEntries Token.StructSep es ++ Token.StructEnd :: tail).length
        + 1) hlen (some fields.length) tail
    simp only [deserializeStruct, nextToken]
    rw [if_pos trivial]
    simp only [Deserializer.visitMap, structVisitor]
    rw [hml]
    rfl
  · have hlen : es.length <
        (encEntries Token.MapSep es ++ Token.MapEnd :: tail).length
          + 1 := by
      have h1 := encEntries_length_ge (κ := κ) (ν := ν) Token.MapSep es
      simp only [List.length_append, List.length_cons]
      omega
    have hml := mapLoop_encEntries keyDe valDe .MapSep .MapEnd
      (by decide) es hk hv
      ((encEntries Token.MapSep es ++ Token.MapEnd :: tail).length + 1)
      hlen (some fields.length) tail
    simp only [deserializeStruct, nextToken]
    simp only [Deserializer.visitMap, structVisitor]
    rw [hml]
    rfl

/-- Witness for C4: the two-field struct body decodes identically with and
without the struct wrapper. -/
theorem struct_accepts_plain_map_witness :
    deserializeStruct "S" ["a", "b"]
        (structVisitor (fun x => x) (deserialize strVisitor)
          (deserialize boolVisitor))
        (.StructStart "S" 2 :: (encEntries .StructSep esEx ++ [.StructEnd]))
      = .ok ([("a", true), ("b", false)], [])
    ∧ deserializeStruct "S" ["a", "b"]
        (structVisitor (fun x => x) (deserialize strVisitor)
          (deserialize boolVisitor))
        (.MapStart (some 2) :: (encEntries .MapSep esEx ++ [.MapEnd]))
      = .ok ([("a", true), ("b", false)], []) := by
  have hk : ∀ e ∈ esEx, ∀ r,
      deserialize strVisitor (e.ktoks ++ r) = .ok (e.key, r) := by
    intro e he r
    simp only [esEx, List.mem_cons, List.not_mem_nil, or_false] at he
    rcases he with rfl | rfl <;> rfl
  have hv : ∀ e ∈ esEx, ∀ r,
      deserialize boolVisitor (e.vtoks ++ r) = .ok (e.val, r) := by
    intro e he r
    simp only [esEx, List.mem_cons, List.not_mem_nil, or_false] at he
    rcases he with rfl | rfl <;> rfl
  have h := struct_accepts_plain_map (fun x => x) (deserialize strVisitor)
    (deserialize boolVisitor) "S" ["a", "b"] 2 (some 2) [] []
    (structVisitor (fun x => x) (deserialize strVisitor)
      (deserialize boolVisitor)) esEx hk hv
  exact ⟨h.2.1, h.2.2⟩

/-- C5: the harness passes exactly when the fresh decode yields the
expected value with zero remaining tokens and the in-place decode —
started from the fresh result, i.e. from the expected value — also yields
the expected value with zero remaining tokens; both paths then agree, and
any divergence of the two results or any leftover tokens after either
path is a failure. -/
theorem assert_de_tokens_pass_iff {T : Type} [DecidableEq T]
    (d : List Token → Except Error (T × List Token))
    (dip : T → List Token → Except Error (T × List Token))
    (value : T) (tokens : List Token) :
    assertDeTokens d dip value tokens = true
      ↔ d tokens = .ok (value, []) ∧ dip value tokens = .ok (value, []) := by
  unfold assertDeTokens internalAssertDeTokens internalAssertDeInPlaceTokens
    remaining
  cases hd : d tokens with
  | error e => simp
  | ok p =>
    obtain ⟨v, rest⟩ := p
    by_cases hveq : v = value
    · subst hveq
      cases rest with
      | nil =>
        simp only [if_pos rfl, List.length_nil, Nat.lt_irrefl, if_neg
          (by omega : ¬ (0 : Nat) > 0)]
        cases hdip : dip v tokens with
        | error e => simp [hdip]
        | ok q =>
          obtain ⟨w, rest2⟩ := q
          by_cases hweq : w = v
          · subst hweq
            cases rest2 with
            | nil => simp [hdip]
            | cons a as => simp [hdip]
          · simp [hdip, hweq]
      | cons a as =>
        simp only []
        simp
    · simp only []
      rw [if_neg hveq]
      simp only []
      constructor
      · intro h
        exact absurd h (by decide)
      · intro h
        injection h.1 with h1
        exact absurd (congrArg Prod.fst h1) hveq

/-- Witness for C8: `expect_token` at concrete inputs. -/
theorem expect_token_consume_and_check_witness :
    expectToken .Unit [.Unit, .SeqEnd] = .ok [.SeqEnd]
    ∧ expectToken .Unit [.SeqSep] = .error (.UnexpectedToken .SeqSep)
    ∧ expectToken .Unit [] = .error .EndOfTokens := by
  refine ⟨?_, ?_, ?_⟩
  · exact ((expect_token_consume_and_check .Unit [.Unit, .SeqEnd]).2 .Unit
      [.SeqEnd] rfl).1.mpr rfl
  · exact ((expect_token_consume_and_check .Unit [.SeqSep]).2 .SeqSep
      [] rfl).2 (by decide)
  · exact (expect_token_consume_and_check .Unit []).1 rfl

end SerdeTest
